import Mathlib

/-!
Shallow embedding of `proxyutils` (file `src/proxyutils/__init__.py`):
the `Proxy` record (construction-time normalization, derived URLs, default
sort key) and the `ResilientProxySession` (proxy rotation, request retry,
proxy-error classification over exception causal chains).

Modelling conventions:
* Python strings are Lean `String`s; the `country` field is a `List Char`
  so that per-character facts (length, upper-casing) are directly statable.
* Python floats are rationals; `float("inf")` makes `response_time` live in
  `WithTop ℚ` (with `⊤` = infinity).
* `datetime.timedelta` is an integer number of microseconds; `timedelta.max`
  is its concrete value `86400000000 * 10^9 - 1` µs.
* Python's `x or default` on numbers returns `default` exactly when `x` is
  falsy (`None`, numeric zero, or the zero timedelta); `pyOr` models it on
  `Option α` with `none` standing for `None`.
* Exception objects live in a finite directed graph (`ExcGraph`): each node
  has an optional `__cause__` and `__context__` edge and Boolean type tags.
-/

namespace Proxyutils

/-- `class ProxyAnonymity(IntEnum)`: TRANSPARENT = 0, ANONYMOUS = 1, ELITE = 2. -/
inductive ProxyAnonymity where
  | transparent
  | anonymous
  | elite
deriving DecidableEq, Repr

/-- Python `datetime.timedelta.max` in microseconds:
`timedelta(days=999999999, hours=23, minutes=59, seconds=59, microseconds=999999)`. -/
def timedeltaMax : Int := 86400000000 * 1000000000 - 1

/-- Python `x or d` for a possibly-`None` numeric `x`: returns `d` when `x`
is falsy (`None` or zero), else `x`. Models lines 39–41 of `__post_init__`. -/
def pyOr {α : Type} [Zero α] [DecidableEq α] (x : Option α) (d : α) : α :=
  match x with
  | none => d
  | some v => if v = 0 then d else v

/-- The `Proxy` dataclass, fields as stored after `__post_init__`. -/
structure Proxy where
  ip : String
  port : String
  protocol : String
  country : List Char
  uptime : ℚ
  response_time : WithTop ℚ
  last_checked : Int
  gateway : Option String := none
  anonymity : Option ProxyAnonymity := none
deriving DecidableEq, Repr

/-- `Proxy(...)` construction including `__post_init__` (lines 33–41):
reject a country string whose length is not 2, upper-case it, and normalize
falsy metric values to their defaults. -/
def mkProxy (ip port protocol : String) (country : List Char)
    (uptime : Option ℚ) (response_time : Option (WithTop ℚ))
    (last_checked : Option Int) (gateway : Option String := none)
    (anonymity : Option ProxyAnonymity := none) : Except String Proxy :=
  if country.length ≠ 2 then
    .error "Country must be a 2-letter country code"
  else
    .ok { ip := ip, port := port, protocol := protocol,
          country := country.map Char.toUpper,
          uptime := pyOr uptime 0,
          response_time := pyOr response_time ⊤,
          last_checked := pyOr last_checked timedeltaMax,
          gateway := gateway, anonymity := anonymity }

/-- Python `str.lower()` (ASCII), applied character-wise. -/
def pyLower (s : String) : String := ⟨s.data.map Char.toLower⟩

/-- `Proxy.url` (lines 43–46). -/
def Proxy.url (p : Proxy) : String :=
  pyLower p.protocol ++ "://" ++ p.ip ++ ":" ++ p.port

/-- `Proxy.requests_protocol` (lines 48–64): lower-case the protocol and
rewrite `socks4 → socks4a`, `socks5 → socks5h`. -/
def Proxy.requests_protocol (p : Proxy) : String :=
  let proto := pyLower p.protocol
  if proto = "socks4" then "socks4a"
  else if proto = "socks5" then "socks5h"
  else proto

/-- `Proxy.requests_url` (lines 66–69). -/
def Proxy.requests_url (p : Proxy) : String :=
  p.requests_protocol ++ "://" ++ p.ip ++ ":" ++ p.port

/-- `Proxy.requests_proxies` (lines 71–74): same URL for both schemes. -/
def Proxy.requests_proxies (p : Proxy) : String × String :=
  (p.requests_url, p.requests_url)

/-- `Proxy.sort_key` (lines 76–85): `(-uptime, last_checked, response_time)`. -/
def Proxy.sort_key (p : Proxy) : ℚ × Int × WithTop ℚ :=
  (-p.uptime, p.last_checked, p.response_time)

/-- Python's lexicographic `≤` on 3-tuples, as used when sorting by
`Proxy.sort_key`. -/
def tupleLe (x y : ℚ × Int × WithTop ℚ) : Prop :=
  x.1 < y.1 ∨ (x.1 = y.1 ∧
    (x.2.1 < y.2.1 ∨ (x.2.1 = y.2.1 ∧ x.2.2 ≤ y.2.2)))

instance : DecidablePred fun xy : (ℚ × Int × WithTop ℚ) × (ℚ × Int × WithTop ℚ) =>
    tupleLe xy.1 xy.2 := fun _ => by unfold tupleLe; infer_instance

/-- The ordering on proxies induced by `Proxy.sort_key`. -/
def keyLe (a b : Proxy) : Prop := tupleLe a.sort_key b.sort_key

instance (a b : Proxy) : Decidable (keyLe a b) := by
  unfold keyLe tupleLe; infer_instance

/-! ## Proxy rotation sequence

`ResilientProxySession.__init__` (line 106) builds
`itertools.chain.from_iterable(itertools.repeat(proxies, max_cycles))`:
the input list repeated `max_cycles` times, consumed by `next`. -/

/-- The rotation sequence as the list of proxies it will yield, in order. -/
def rotationList (proxies : List Proxy) (max_cycles : Nat) : List Proxy :=
  (List.replicate max_cycles proxies).flatten

/-! ## Exception graphs and the proxy-error classifier

`_is_proxy_error` (lines 133–154) walks `__cause__`/`__context__` links of a
caught exception. We model the heap of exception objects as a finite graph:
`n` nodes, each with optional cause/context edges and Boolean class tags
(`isinstance` of `requests.exceptions.ProxyError`,
`requests.exceptions.ConnectionError`, `socks.ProxyError`). -/

structure ExcGraph (n : Nat) where
  cause : Fin n → Option (Fin n)
  context : Fin n → Option (Fin n)
  requestsProxyError : Fin n → Bool
  connectionError : Fin n → Bool
  socksProxyError : Fin n → Bool

namespace ExcGraph

variable {n : Nat}

/-- `filter(None, {cur.__cause__, cur.__context__})` (line 153): the set of
non-`None` cause/context links of a node (a Python `set`, so a shared
cause/context object contributes once). -/
def childList (g : ExcGraph n) (c : Fin n) : List (Fin n) :=
  if g.cause c = g.context c then (g.cause c).toList
  else (g.cause c).toList ++ (g.context c).toList

/-- The `while stack:` loop of `_is_proxy_error` (lines 145–153): pop, skip
seen nodes, report `true` on a `socks.ProxyError`, else push the node's
cause/context links. -/
def walk (g : ExcGraph n) (stack : List (Fin n)) (seen : Finset (Fin n)) : Bool :=
  match stack with
  | [] => false
  | cur :: rest =>
    if cur ∈ seen then walk g rest seen
    else if g.socksProxyError cur then true
    else walk g (g.childList cur ++ rest) (insert cur seen)
termination_by ((Finset.univ \ seen).card, stack.length)
decreasing_by
  · exact Prod.Lex.right _ (Nat.lt_succ_self _)
  · apply Prod.Lex.left
    apply Finset.card_lt_card
    constructor
    · intro x hx
      simp only [Finset.mem_sdiff, Finset.mem_insert] at *
      tauto
    · intro hsub
      have := hsub (by simp [Finset.mem_sdiff, *] : cur ∈ Finset.univ \ seen)
      simp [Finset.mem_sdiff] at this

/-- `_is_proxy_error` (lines 133–154). -/
def is_proxy_error (g : ExcGraph n) (ex : Fin n) : Bool :=
  if g.requestsProxyError ex then true
  else if g.connectionError ex then g.walk [ex] ∅
  else false

/-- One `__cause__`/`__context__` step between exception objects. -/
def Step (g : ExcGraph n) (a b : Fin n) : Prop :=
  g.cause a = some b ∨ g.context a = some b

/-- Reachability through the causal chain (reflexive–transitive closure of
cause/context steps): the nodes the walk may visit starting from `a`. -/
def Reach (g : ExcGraph n) : Fin n → Fin n → Prop :=
  Relation.ReflTransGen g.Step

/-- Step-indexed version of the `while stack:` loop, returning `none` when
the step budget runs out, and otherwise the loop's answer together with the
list of nodes actually processed (popped while unseen), in order. Used to
show the loop terminates on every graph, cycles included. -/
def walkFuel (g : ExcGraph n) : Nat → List (Fin n) → Finset (Fin n) →
    Option (Bool × List (Fin n))
  | 0, _, _ => none
  | _ + 1, [], _ => some (false, [])
  | f + 1, cur :: rest, seen =>
    if cur ∈ seen then walkFuel g f rest seen
    else if g.socksProxyError cur then some (true, [cur])
    else (walkFuel g f (g.childList cur ++ rest) (insert cur seen)).map
      (fun res => (res.1, cur :: res.2))

end ExcGraph

/-! ## Resilient session

`ResilientProxySession` state: the not-yet-consumed tail of the rotation
iterator, and the currently configured proxy (`self.proxies` holds
`current.requests_proxies`). -/

structure SessionState where
  remaining : List Proxy
  current : Proxy
deriving DecidableEq, Repr

/-- What one call to the underlying `requests.Session.request` does for a
given request and active proxy: return a response, or raise a
`requests.exceptions.ConnectionError` (an exception-graph node). -/
inductive Outcome (n : Nat) where
  | ok (v : Nat)
  | connErr (e : Fin n)
deriving DecidableEq, Repr

/-- Result of `ResilientProxySession.request`: a response, a propagated
connection error, or the `RuntimeError('No more proxies available')` raised
by `_set_next_proxy` on exhaustion. -/
inductive ReqResult (n : Nat) where
  | success (v : Nat)
  | raised (e : Fin n)
  | noMoreProxies
deriving DecidableEq, Repr

/-- `ResilientProxySession.__init__` (lines 95–114): normalize `max_cycles`
(`None` means 1, non-positive is a `ValueError`), build the rotation
iterator, and draw the first proxy (`_set_next_proxy`), which raises
`RuntimeError` when the sequence is immediately empty. -/
def mkSession (proxies : List Proxy) (max_cycles : Option Int := some 2) :
    Except String SessionState :=
  let mc : Int := match max_cycles with | none => 1 | some m => m
  if mc ≤ 0 then .error "max_cycles must be a positive integer number"
  else
    match rotationList proxies mc.toNat with
    | [] => .error "No more proxies available"
    | p :: rest => .ok ⟨rest, p⟩

/-- `ResilientProxySession.request` (lines 123–131), with the underlying
transport `super().request` as an oracle from (request, active proxy) to an
outcome. Returns the result, the post-call session state, and the trace of
transport invocations actually made (request paired with the proxy it was
sent through). On a caught connection error that `_is_proxy_error`
classifies as a proxy error, `_set_next_proxy` advances rotation (raising
`RuntimeError` with the state unchanged if the iterator is exhausted) and
the identical request is issued once more through the new proxy, whose
outcome is returned as-is. -/
def sessionRequest {Req : Type} {n : Nat} (g : ExcGraph n)
    (transport : Req → Proxy → Outcome n) (r : Req) (st : SessionState) :
    ReqResult n × SessionState × List (Req × Proxy) :=
  match transport r st.current with
  | .ok v => (.success v, st, [(r, st.current)])
  | .connErr e =>
    if !g.is_proxy_error e then (.raised e, st, [(r, st.current)])
    else
      match st.remaining with
      | [] => (.noMoreProxies, st, [(r, st.current)])
      | p :: rest =>
        match transport r p with
        | .ok v => (.success v, ⟨rest, p⟩, [(r, st.current), (r, p)])
        | .connErr e2 => (.raised e2, ⟨rest, p⟩, [(r, st.current), (r, p)])

/-! ## Correctness of the classifier's graph walk -/

namespace ExcGraph

variable {n : Nat}

lemma mem_childList_iff {g : ExcGraph n} {a b : Fin n} :
    b ∈ g.childList a ↔ g.Step a b := by
  unfold childList Step
  split
  · rename_i hec
    simp only [Option.mem_toList, Option.mem_def]
    constructor
    · exact fun h => Or.inl h
    · rintro (h | h)
      · exact h
      · rw [hec]; exact h
  · simp only [List.mem_append, Option.mem_toList, Option.mem_def]

lemma reach_mem_closed {g : ExcGraph n} {S : Set (Fin n)}
    (hS : ∀ a ∈ S, ∀ b, g.Step a b → b ∈ S) {a b : Fin n}
    (ha : a ∈ S) (hr : g.Reach a b) : b ∈ S := by
  induction hr with
  | refl => exact ha
  | tail _ hcb ih => exact hS _ ih _ hcb

/-- If the walk answers `true`, some node on the stack reaches a
`socks.ProxyError` node. -/
lemma walk_sound (g : ExcGraph n) (stack : List (Fin n)) (seen : Finset (Fin n))
    (h : g.walk stack seen = true) :
    ∃ a ∈ stack, ∃ b, g.Reach a b ∧ g.socksProxyError b = true := by
  induction stack, seen using walk.induct g with
  | case1 seen => simp [walk] at h
  | case2 seen cur rest hmem ih =>
    rw [walk, if_pos hmem] at h
    obtain ⟨a, ha, b, hr, hb⟩ := ih h
    exact ⟨a, List.mem_cons_of_mem _ ha, b, hr, hb⟩
  | case3 seen cur rest hmem hsocks =>
    exact ⟨cur, List.mem_cons_self _ _, cur, Relation.ReflTransGen.refl, hsocks⟩
  | case4 seen cur rest hmem hsocks ih =>
    rw [walk, if_neg hmem, if_neg (by simp [hsocks])] at h
    obtain ⟨a, ha, b, hr, hb⟩ := ih h
    rcases List.mem_append.mp ha with hchild | hrest
    · exact ⟨cur, List.mem_cons_self _ _, b,
        Relation.ReflTransGen.trans
          (Relation.ReflTransGen.single (mem_childList_iff.mp hchild)) hr, hb⟩
    · exact ⟨a, List.mem_cons_of_mem _ hrest, b, hr, hb⟩

/-- If the walk answers `false`, no node reachable from the stack (or from
the already-seen set, when its pending children are all on the stack) is a
`socks.ProxyError`. -/
lemma walk_complete (g : ExcGraph n) (stack : List (Fin n)) (seen : Finset (Fin n))
    (hsocks : ∀ a ∈ seen, g.socksProxyError a = false)
    (hclosed : ∀ a ∈ seen, ∀ b ∈ g.childList a, b ∈ seen ∨ b ∈ stack)
    (hw : g.walk stack seen = false) :
    ∀ a, (a ∈ stack ∨ a ∈ seen) → ∀ b, g.Reach a b → g.socksProxyError b = false := by
  induction stack, seen using walk.induct g with
  | case1 seen =>
    intro a ha b hr
    rcases ha with ha | ha
    · simp at ha
    · have hb : b ∈ (↑seen : Set (Fin n)) := by
        refine reach_mem_closed ?_ ha hr
        intro x hx y hy
        rcases hclosed x hx y (mem_childList_iff.mpr hy) with h | h
        · exact h
        · simp at h
      exact hsocks b hb
  | case2 seen cur rest hmem ih =>
    rw [walk, if_pos hmem] at hw
    have hclosed' : ∀ a ∈ seen, ∀ b ∈ g.childList a, b ∈ seen ∨ b ∈ rest := by
      intro a ha b hb
      rcases hclosed a ha b hb with h | h
      · exact Or.inl h
      · rcases List.mem_cons.mp h with h | h
        · exact Or.inl (h ▸ hmem)
        · exact Or.inr h
    intro a ha b hr
    rcases ha with ha | ha
    · rcases List.mem_cons.mp ha with h | h
      · exact ih hsocks hclosed' hw a (Or.inr (h ▸ hmem)) b hr
      · exact ih hsocks hclosed' hw a (Or.inl h) b hr
    · exact ih hsocks hclosed' hw a (Or.inr ha) b hr
  | case3 seen cur rest hmem hsocks' =>
    rw [walk, if_neg hmem, if_pos hsocks'] at hw
    exact absurd hw (by simp)
  | case4 seen cur rest hmem hsocks' ih =>
    rw [walk, if_neg hmem, if_neg (by simp [hsocks'])] at hw
    have hsocks2 : ∀ a ∈ insert cur seen, g.socksProxyError a = false := by
      intro a ha
      rcases Finset.mem_insert.mp ha with h | h
      · rw [h]; simpa using hsocks'
      · exact hsocks a h
    have hclosed2 : ∀ a ∈ insert cur seen, ∀ b ∈ g.childList a,
        b ∈ insert cur seen ∨ b ∈ g.childList cur ++ rest := by
      intro a ha b hb
      rcases Finset.mem_insert.mp ha with h | h
      · exact Or.inr (List.mem_append.mpr (Or.inl (h ▸ hb)))
      · rcases hclosed a h b hb with h2 | h2
        · exact Or.inl (Finset.mem_insert_of_mem h2)
        · rcases List.mem_cons.mp h2 with h3 | h3
          · exact Or.inl (h3 ▸ Finset.mem_insert_self _ _)
          · exact Or.inr (List.mem_append.mpr (Or.inr h3))
    intro a ha b hr
    rcases ha with ha | ha
    · rcases List.mem_cons.mp ha with h | h
      · exact ih hsocks2 hclosed2 hw a (Or.inr (h ▸ Finset.mem_insert_self _ _)) b hr
      · exact ih hsocks2 hclosed2 hw a
          (Or.inl (List.mem_append.mpr (Or.inr h))) b hr
    · exact ih hsocks2 hclosed2 hw a (Or.inr (Finset.mem_insert_of_mem ha)) b hr

/-- The walk started on `[ex]` with nothing seen decides reachability of a
`socks.ProxyError` node. -/
lemma walk_singleton_iff (g : ExcGraph n) (ex : Fin n) :
    g.walk [ex] ∅ = true ↔ ∃ b, g.Reach ex b ∧ g.socksProxyError b = true := by
  constructor
  · intro h
    obtain ⟨a, ha, b, hr, hb⟩ := walk_sound g [ex] ∅ h
    simp only [List.mem_singleton] at ha
    exact ⟨b, ha ▸ hr, hb⟩
  · intro ⟨b, hr, hb⟩
    by_contra hfalse
    have hw : g.walk [ex] ∅ = false := by
      cases h : g.walk [ex] ∅
      · rfl
      · exact absurd h hfalse
    have := walk_complete g [ex] ∅ (by simp) (by simp) hw ex
      (Or.inl (List.mem_singleton_self ex)) b hr
    rw [this] at hb
    exact Bool.false_ne_true hb

/-- A successful step-indexed run agrees with the loop's answer, and its
trace of processed nodes is duplicate-free and disjoint from the initial
seen set: the loop processes each exception object at most once. -/
lemma walkFuel_sound (g : ExcGraph n) :
    ∀ (f : Nat) (stack : List (Fin n)) (seen : Finset (Fin n)) (b : Bool)
      (tr : List (Fin n)), g.walkFuel f stack seen = some (b, tr) →
      b = g.walk stack seen ∧ tr.Nodup ∧ ∀ x ∈ tr, x ∉ seen := by
  intro f
  induction f with
  | zero => intro stack seen b tr h; simp [walkFuel] at h
  | succ f ih =>
    intro stack seen b tr h
    match stack with
    | [] =>
      simp only [walkFuel, Option.some.injEq, Prod.mk.injEq] at h
      obtain ⟨hb, htr⟩ := h
      subst hb htr
      simp [walk]
    | cur :: rest =>
      by_cases hmem : cur ∈ seen
      · rw [walkFuel, if_pos hmem] at h
        obtain ⟨hb, hnd, hdisj⟩ := ih rest seen b tr h
        exact ⟨by rw [walk, if_pos hmem]; exact hb, hnd, hdisj⟩
      · by_cases hsocks : g.socksProxyError cur = true
        · rw [walkFuel, if_neg hmem, if_pos hsocks] at h
          simp only [Option.some.injEq, Prod.mk.injEq] at h
          obtain ⟨hb, htr⟩ := h
          subst hb htr
          refine ⟨by rw [walk, if_neg hmem, if_pos hsocks], by simp, ?_⟩
          intro x hx
          simp only [List.mem_singleton] at hx
          exact hx ▸ hmem
        · rw [walkFuel, if_neg hmem, if_neg hsocks] at h
          match hrec : g.walkFuel f (g.childList cur ++ rest) (insert cur seen) with
          | none => rw [hrec] at h; simp at h
          | some (b', tr') =>
            rw [hrec] at h
            simp only [Option.map_some', Option.some.injEq, Prod.mk.injEq] at h
            obtain ⟨hb, htr⟩ := h
            obtain ⟨hb', hnd', hdisj'⟩ := ih _ _ _ _ hrec
            subst hb htr
            refine ⟨?_, ?_, ?_⟩
            · rw [walk, if_neg hmem, if_neg hsocks]; exact hb'
            · refine List.nodup_cons.mpr ⟨?_, hnd'⟩
              intro hcur
              exact hdisj' cur hcur (Finset.mem_insert_self _ _)
            · intro x hx
              rcases List.mem_cons.mp hx with h | h
              · exact h ▸ hmem
              · exact fun hxseen =>
                  hdisj' x h (Finset.mem_insert_of_mem hxseen)

/-- For every graph, some finite step budget lets the loop run to
completion: the walk terminates even on cyclic cause/context graphs. -/
lemma walkFuel_terminates (g : ExcGraph n) (stack : List (Fin n))
    (seen : Finset (Fin n)) : ∃ f res, g.walkFuel f stack seen = some res := by
  induction stack, seen using walk.induct g with
  | case1 seen => exact ⟨1, (false, []), rfl⟩
  | case2 seen cur rest hmem ih =>
    obtain ⟨f, res, hres⟩ := ih
    exact ⟨f + 1, res, by rw [walkFuel, if_pos hmem]; exact hres⟩
  | case3 seen cur rest hmem hsocks =>
    exact ⟨1, (true, [cur]), by rw [walkFuel, if_neg hmem, if_pos hsocks]⟩
  | case4 seen cur rest hmem hsocks ih =>
    obtain ⟨f, ⟨b, tr⟩, hres⟩ := ih
    refine ⟨f + 1, (b, cur :: tr), ?_⟩
    rw [walkFuel, if_neg hmem, if_neg (by simp [hsocks]), hres]
    rfl

end ExcGraph

/-! ## Character-level facts about upper/lower-casing -/

lemma char_toNat_ofNat (n : Nat) (h : n < 55296) : (Char.ofNat n).toNat = n := by
  unfold Char.ofNat
  have hv : n.isValidChar := Or.inl (by omega)
  rw [dif_pos hv]
  rfl

lemma toUpper_isUpper_of_isAlpha (c : Char) (h : c.isAlpha = true) :
    c.toUpper.isUpper = true := by
  simp [Char.isAlpha, Char.isUpper, Char.isLower] at h
  have h' : (65 ≤ c.val.toNat ∧ c.val.toNat ≤ 90) ∨
      (97 ≤ c.val.toNat ∧ c.val.toNat ≤ 122) := by
    rcases h with ⟨h1, h2⟩ | ⟨h1, h2⟩
    · exact Or.inl ⟨h1, h2⟩
    · exact Or.inr ⟨h1, h2⟩
  simp only [Char.toUpper, Char.toNat]
  rcases h' with ⟨h1, h2⟩ | ⟨h1, h2⟩
  · rw [if_neg (by omega)]
    simp [Char.isUpper]
    refine ⟨?_, ?_⟩
    · show (65:UInt32).toNat ≤ c.val.toNat
      simp [UInt32.toNat_ofNat, UInt32.size]
      omega
    · show c.val.toNat ≤ (90:UInt32).toNat
      simp [UInt32.toNat_ofNat, UInt32.size]
      omega
  · rw [if_pos (by omega)]
    have hh := char_toNat_ofNat (c.val.toNat - 32) (by omega)
    simp only [Char.toNat, UInt32.toNat] at hh
    simp [Char.isUpper]
    refine ⟨?_, ?_⟩
    · show (65:UInt32).toNat ≤ _
      simp only [UInt32.toNat]
      simp [UInt32.toNat_ofNat, UInt32.size, hh]
      simp only [UInt32.toNat] at h1 h2
      omega
    · show _ ≤ (90:UInt32).toNat
      simp only [UInt32.toNat]
      simp [UInt32.toNat_ofNat, UInt32.size, hh]
      simp only [UInt32.toNat] at h1 h2
      omega

lemma toLower_toUpper_of_isAlpha (c : Char) (h : c.isAlpha = true) :
    c.toLower.toUpper = c.toUpper := by
  simp [Char.isAlpha, Char.isUpper, Char.isLower] at h
  have h' : (65 ≤ c.val.toNat ∧ c.val.toNat ≤ 90) ∨
      (97 ≤ c.val.toNat ∧ c.val.toNat ≤ 122) := by
    rcases h with ⟨h1, h2⟩ | ⟨h1, h2⟩
    · exact Or.inl ⟨h1, h2⟩
    · exact Or.inr ⟨h1, h2⟩
  rcases h' with ⟨h1, h2⟩ | ⟨h1, h2⟩
  · simp only [Char.toLower, Char.toNat]
    rw [if_pos (by omega)]
    have hh := char_toNat_ofNat (c.val.toNat + 32) (by omega)
    simp only [Char.toNat] at hh
    simp only [Char.toUpper, Char.toNat, hh]
    rw [if_pos (by omega), if_neg (by omega)]
    have heq : c.val.toNat + 32 - 32 = c.val.toNat := by omega
    rw [heq]
    exact Char.ofNat_toNat c
  · simp only [Char.toLower, Char.toNat]
    rw [if_neg (by omega)]

/-! ## Sample values used by witnesses and concrete scenarios -/

/-- A concrete proxy record (uptime 90, last checked 1 s = 10⁶ µs ago,
response time 50 ms). -/
def sampleProxyA : Proxy :=
  { ip := "10.0.0.1", port := "8080", protocol := "http", country := ['A', 'R'],
    uptime := 90, response_time := ((50 : ℚ) : WithTop ℚ), last_checked := 1000000 }

/-- A concrete proxy record (uptime 90, last checked 5 s ago, response time
10 ms). -/
def sampleProxyB : Proxy :=
  { ip := "10.0.0.2", port := "3128", protocol := "http", country := ['A', 'R'],
    uptime := 90, response_time := ((10 : ℚ) : WithTop ℚ), last_checked := 5000000 }

/-- A two-node exception graph: node 0 is a generic
`requests.exceptions.ConnectionError` whose `__cause__` is node 1, a
`socks.ProxyError`. -/
def witnessGraph : ExcGraph 2 where
  cause := fun i => if i = 0 then some 1 else none
  context := fun _ => none
  requestsProxyError := fun _ => false
  connectionError := fun i => decide (i = 0)
  socksProxyError := fun i => decide (i = 1)

/-- A two-node exception graph with no links: node 0 is a directly-typed
`requests.exceptions.ProxyError` (hence also a `ConnectionError`), node 1 a
non-proxy, non-connection error. -/
def simpleGraph : ExcGraph 2 where
  cause := fun _ => none
  context := fun _ => none
  requestsProxyError := fun i => decide (i = 0)
  connectionError := fun i => decide (i = 0)
  socksProxyError := fun _ => false

/-- A transport that always raises the proxy-classified error node 0. -/
def transportAlwaysProxyFail : Unit → Proxy → Outcome 2 :=
  fun _ _ => .connErr 0

/-- A transport that always succeeds. -/
def transportAlwaysOk : Unit → Proxy → Outcome 2 :=
  fun _ _ => .ok 7

/-! ## Claims -/

/-- C2: for every failed connection error, `_is_proxy_error` reports a proxy
error iff the error is a directly-typed `requests.exceptions.ProxyError`, or
some exception reachable through its `__cause__`/`__context__` chain
(including the error itself) is a `socks.ProxyError`; otherwise it reports
`False`. -/
theorem C2_classifier_characterization {n : Nat} (g : ExcGraph n) (ex : Fin n)
    (hconn : g.connectionError ex = true) :
    g.is_proxy_error ex = true ↔
      (g.requestsProxyError ex = true ∨
        ∃ b, g.Reach ex b ∧ g.socksProxyError b = true) := by
  unfold ExcGraph.is_proxy_error
  rcases hb : g.requestsProxyError ex with _ | _
  · simp [hb, hconn, ExcGraph.walk_singleton_iff]
  · simp [hb]

theorem C2_classifier_characterization_witness :
    witnessGraph.connectionError 0 = true ∧
      (witnessGraph.is_proxy_error 0 = true ↔
        (witnessGraph.requestsProxyError 0 = true ∨
          ∃ b, witnessGraph.Reach 0 b ∧ witnessGraph.socksProxyError b = true)) :=
  ⟨by decide, C2_classifier_characterization witnessGraph 0 (by decide)⟩

/-- C9: the classifier's cause/context walk terminates on every finite
exception graph (cycles included): some finite step budget completes the
loop, the answer agrees with the loop's (deterministic, total) result, and
the nodes processed are pairwise distinct — each node is visited at most
once. -/
theorem C9_walk_terminates {n : Nat} (g : ExcGraph n) (ex : Fin n) :
    ∃ f b tr, g.walkFuel f [ex] ∅ = some (b, tr) ∧
      b = g.walk [ex] ∅ ∧ tr.Nodup := by
  obtain ⟨f, ⟨b, tr⟩, hres⟩ := ExcGraph.walkFuel_terminates g [ex] ∅
  obtain ⟨hb, hnd, _⟩ := ExcGraph.walkFuel_sound g f [ex] ∅ b tr hres
  exact ⟨f, b, tr, hres, hb, hnd⟩

/-- C5: for a non-empty proxy list and positive `max_cycles`, the rotation
sequence is the list repeated `max_cycles` times: element `i` is
`ps[i % ps.length]` for `i < max_cycles * ps.length` (list order, restarting
from the beginning, no deduplication), and every position from
`max_cycles * ps.length` on is exhausted; in particular `[P1, P2]` with
`max_cycles = 2` yields `P1, P2, P1, P2` and is exhausted at the 5th
advance. -/
theorem C5_rotation_order (ps : List Proxy) (m : Nat) (hps : 0 < ps.length)
    (hm : 0 < m) :
    (rotationList ps m).length = m * ps.length ∧
    (∀ i, i < m * ps.length → (rotationList ps m)[i]? = ps[i % ps.length]?) ∧
    (∀ i, m * ps.length ≤ i → (rotationList ps m)[i]? = none) ∧
    (∀ p1 p2 : Proxy, rotationList [p1, p2] 2 = [p1, p2, p1, p2] ∧
      (rotationList [p1, p2] 2)[4]? = none) := by
  have hlen : ∀ k : Nat, (rotationList ps k).length = k * ps.length := by
    intro k
    induction k with
    | zero => simp [rotationList]
    | succ k ih =>
      simp only [rotationList, List.replicate_succ, List.flatten_cons,
        List.length_append] at ih ⊢
      rw [Nat.succ_mul]
      omega
  refine ⟨hlen m, ?_, ?_, ?_⟩
  · clear hm
    intro i hi
    induction m generalizing i with
    | zero => omega
    | succ k ih =>
      have hmul : (k + 1) * ps.length = k * ps.length + ps.length :=
        Nat.succ_mul k ps.length
      simp only [rotationList, List.replicate_succ, List.flatten_cons]
      by_cases hlt : i < ps.length
      · rw [List.getElem?_append, if_pos hlt, Nat.mod_eq_of_lt hlt]
      · push_neg at hlt
        rw [List.getElem?_append, if_neg (not_lt.mpr hlt),
          Nat.mod_eq_sub_mod hlt]
        exact ih (i - ps.length) (by omega)
  · intro i hi
    exact List.getElem?_eq_none (by rw [hlen m]; omega)
  · intro p1 p2
    exact ⟨rfl, rfl⟩

theorem C5_rotation_order_witness :
    0 < ([sampleProxyA, sampleProxyB] : List Proxy).length ∧ 0 < 2 ∧
    ((rotationList [sampleProxyA, sampleProxyB] 2).length =
        2 * ([sampleProxyA, sampleProxyB] : List Proxy).length ∧
      (∀ i, i < 2 * ([sampleProxyA, sampleProxyB] : List Proxy).length →
        (rotationList [sampleProxyA, sampleProxyB] 2)[i]? =
          ([sampleProxyA, sampleProxyB] : List Proxy)[i % ([sampleProxyA, sampleProxyB] : List Proxy).length]?) ∧
      (∀ i, 2 * ([sampleProxyA, sampleProxyB] : List Proxy).length ≤ i →
        (rotationList [sampleProxyA, sampleProxyB] 2)[i]? = none) ∧
      (∀ p1 p2 : Proxy, rotationList [p1, p2] 2 = [p1, p2, p1, p2] ∧
        (rotationList [p1, p2] 2)[4]? = none)) :=
  ⟨by simp, by norm_num,
    C5_rotation_order [sampleProxyA, sampleProxyB] 2 (by simp) (by norm_num)⟩

/-- C6: constructing a `Proxy` fails when the country string's length is not
2; with a length-2 country it succeeds, storing the upper-cased input — for
alphabetic input the stored code is exactly 2 uppercase letters, and inputs
differing only in case store the same code. -/
theorem C6_country_validation (ip port protocol : String) (country bad : List Char)
    (u : Option ℚ) (rt : Option (WithTop ℚ)) (lc : Option Int)
    (hlen : country.length = 2) (hbad : bad.length ≠ 2)
    (halpha : ∀ c ∈ country, c.isAlpha = true) :
    mkProxy ip port protocol bad u rt lc =
      .error "Country must be a 2-letter country code" ∧
    ∃ p, mkProxy ip port protocol country u rt lc = .ok p ∧
      p.country = country.map Char.toUpper ∧
      p.country.length = 2 ∧
      (∀ c ∈ p.country, c.isUpper = true) ∧
      (country.map Char.toLower).map Char.toUpper = p.country := by
  constructor
  · rw [mkProxy, if_pos hbad]
  · unfold mkProxy
    rw [if_neg (by simp [hlen])]
    refine ⟨_, rfl, rfl, by simp [hlen], ?_, ?_⟩
    · intro c hc
      simp only [List.mem_map] at hc
      obtain ⟨c0, hc0, rfl⟩ := hc
      exact toUpper_isUpper_of_isAlpha c0 (halpha c0 hc0)
    · show (country.map Char.toLower).map Char.toUpper = country.map Char.toUpper
      rw [List.map_map]
      apply List.map_congr_left
      intro c hc
      simp only [Function.comp_apply]
      exact toLower_toUpper_of_isAlpha c (halpha c hc)

theorem C6_country_validation_witness :
    (['a', 'R'] : List Char).length = 2 ∧ (['a'] : List Char).length ≠ 2 ∧
    (∀ c ∈ (['a', 'R'] : List Char), c.isAlpha = true) ∧
    (mkProxy "1.2.3.4" "8080" "http" ['a'] none none none =
      .error "Country must be a 2-letter country code" ∧
    ∃ p, mkProxy "1.2.3.4" "8080" "http" ['a', 'R'] none none none = .ok p ∧
      p.country = (['a', 'R'] : List Char).map Char.toUpper ∧
      p.country.length = 2 ∧
      (∀ c ∈ p.country, c.isUpper = true) ∧
      ((['a', 'R'] : List Char).map Char.toLower).map Char.toUpper = p.country) :=
  ⟨by decide, by decide, by decide,
    C6_country_validation "1.2.3.4" "8080" "http" ['a', 'R'] ['a'] none none none
      (by decide) (by decide) (by decide)⟩

/-- C7: the ordering induced by `Proxy.sort_key` under Python's
lexicographic tuple comparison is total and transitive, and it orders by
descending uptime, then ascending last-checked duration, then ascending
response time; concretely `sampleProxyA` (uptime 90, checked 1 s ago,
50 ms) sorts strictly before `sampleProxyB` (uptime 90, checked 5 s ago,
10 ms). -/
theorem C7_default_ordering :
    (∀ a b : Proxy, keyLe a b ∨ keyLe b a) ∧
    (∀ a b c : Proxy, keyLe a b → keyLe b c → keyLe a c) ∧
    (∀ a b : Proxy, keyLe a b ↔
      (b.uptime < a.uptime ∨ (a.uptime = b.uptime ∧
        (a.last_checked < b.last_checked ∨ (a.last_checked = b.last_checked ∧
          a.response_time ≤ b.response_time))))) ∧
    (keyLe sampleProxyA sampleProxyB ∧ ¬ keyLe sampleProxyB sampleProxyA) := by
  have hbridge : ∀ x y : ℚ × Int × WithTop ℚ, tupleLe x y ↔
      (toLex (x.1, toLex (x.2.1, x.2.2)) ≤ toLex (y.1, toLex (y.2.1, y.2.2))) := by
    intro x y
    rw [Prod.Lex.le_iff, Prod.Lex.le_iff]
    rfl
  refine ⟨?_, ?_, ?_, ?_, ?_⟩
  · intro a b
    rw [keyLe, keyLe, hbridge, hbridge]
    exact le_total _ _
  · intro a b c hab hbc
    rw [keyLe, hbridge] at hab hbc ⊢
    exact le_trans hab hbc
  · intro a b
    unfold keyLe tupleLe Proxy.sort_key
    simp only [neg_lt_neg_iff, neg_inj]
  · decide
  · decide

/-- C8: `requests_protocol` rewrites SOCKS4 to `socks4a` and SOCKS5 to
`socks5h` (case-insensitively), leaves `http`/`https` as-is, and neither
the canonical nor the transport-facing URL alters the host or port. -/
theorem C8_socks_scheme_rewrite (p : Proxy) (ip port : String) :
    ({ p with protocol := "socks4" } : Proxy).requests_protocol = "socks4a" ∧
    ({ p with protocol := "SOCKS4" } : Proxy).requests_protocol = "socks4a" ∧
    ({ p with protocol := "socks5" } : Proxy).requests_protocol = "socks5h" ∧
    ({ p with protocol := "SOCKS5" } : Proxy).requests_protocol = "socks5h" ∧
    ({ p with protocol := "http" } : Proxy).requests_protocol = "http" ∧
    ({ p with protocol := "HTTP" } : Proxy).requests_protocol = "http" ∧
    ({ p with protocol := "https" } : Proxy).requests_protocol = "https" ∧
    ({ p with protocol := "HTTPS" } : Proxy).requests_protocol = "https" ∧
    ({ p with ip := ip, port := port } : Proxy).requests_url =
      ({ p with ip := ip, port := port } : Proxy).requests_protocol ++
        "://" ++ ip ++ ":" ++ port ∧
    ({ p with ip := ip, port := port } : Proxy).url =
      pyLower p.protocol ++ "://" ++ ip ++ ":" ++ port := by
  exact ⟨rfl, rfl, rfl, rfl, rfl, rfl, rfl, rfl, rfl, rfl⟩

/-- C10: `__post_init__` normalizes falsy metric values, not just absent
ones: `response_time = 0` is stored as `+∞`, `last_checked = timedelta(0)`
as `timedelta.max`, `uptime = None` as `0.0`, and a record built from a
genuinely-zero metric equals the record built with that metric missing. -/
theorem C10_falsy_normalization (ip port protocol : String)
    (country : List Char) (u : Option ℚ) (rt : Option (WithTop ℚ))
    (lc : Option Int) (hlen : country.length = 2) :
    (mkProxy ip port protocol country u (some 0) lc =
        mkProxy ip port protocol country u none lc ∧
      ∃ p, mkProxy ip port protocol country u (some 0) lc = .ok p ∧
        p.response_time = ⊤) ∧
    (mkProxy ip port protocol country u rt (some 0) =
        mkProxy ip port protocol country u rt none ∧
      ∃ p, mkProxy ip port protocol country u rt (some 0) = .ok p ∧
        p.last_checked = timedeltaMax) ∧
    (mkProxy ip port protocol country none rt lc =
        mkProxy ip port protocol country (some 0) rt lc ∧
      ∃ p, mkProxy ip port protocol country none rt lc = .ok p ∧
        p.uptime = 0) := by
  have hne : ¬ country.length ≠ 2 := by simp [hlen]
  refine ⟨⟨?_, ?_⟩, ⟨?_, ?_⟩, ⟨?_, ?_⟩⟩ <;>
    simp only [mkProxy, if_neg hne, pyOr] <;>
    first
      | rfl
      | exact ⟨_, rfl, rfl⟩

theorem C10_falsy_normalization_witness :
    (['A', 'R'] : List Char).length = 2 ∧
    ((mkProxy "1.2.3.4" "8080" "http" ['A', 'R'] (some 90) (some 0) (some 5) =
        mkProxy "1.2.3.4" "8080" "http" ['A', 'R'] (some 90) none (some 5) ∧
      ∃ p, mkProxy "1.2.3.4" "8080" "http" ['A', 'R'] (some 90) (some 0) (some 5) = .ok p ∧
        p.response_time = ⊤) ∧
    (mkProxy "1.2.3.4" "8080" "http" ['A', 'R'] (some 90) (some 7) (some 0) =
        mkProxy "1.2.3.4" "8080" "http" ['A', 'R'] (some 90) (some 7) none ∧
      ∃ p, mkProxy "1.2.3.4" "8080" "http" ['A', 'R'] (some 90) (some 7) (some 0) = .ok p ∧
        p.last_checked = timedeltaMax) ∧
    (mkProxy "1.2.3.4" "8080" "http" ['A', 'R'] none (some 7) (some 5) =
        mkProxy "1.2.3.4" "8080" "http" ['A', 'R'] (some 0) (some 7) (some 5) ∧
      ∃ p, mkProxy "1.2.3.4" "8080" "http" ['A', 'R'] none (some 7) (some 5) = .ok p ∧
        p.uptime = 0)) :=
  ⟨by decide,
    C10_falsy_normalization "1.2.3.4" "8080" "http" ['A', 'R'] (some 90)
      (some 7) (some 5) (by decide)⟩

/-- C3: when a request fails with a proxy-classified connection error and a
next proxy exists, the session advances rotation exactly once, makes that
proxy active, and re-issues the identical request exactly once through it;
the retry's outcome — success or error of any classification — is returned
as-is, with exactly two transport invocations in total. -/
theorem C3_single_rotation_retry {Req : Type} {n : Nat} (g : ExcGraph n)
    (transport : Req → Proxy → Outcome n) (r : Req) (st : SessionState)
    (e : Fin n) (p : Proxy) (rest : List Proxy)
    (hrem : st.remaining = p :: rest)
    (hfail : transport r st.current = .connErr e)
    (hclass : g.is_proxy_error e = true) :
    sessionRequest g transport r st =
      ((match transport r p with
        | .ok v => ReqResult.success v
        | .connErr e2 => ReqResult.raised e2),
        (⟨rest, p⟩ : SessionState), [(r, st.current), (r, p)]) := by
  unfold sessionRequest
  rw [hfail, hrem]
  cases htp : transport r p <;> simp [hclass, htp]

theorem C3_single_rotation_retry_witness :
    (⟨[sampleProxyB], sampleProxyA⟩ : SessionState).remaining = [sampleProxyB] ∧
    transportAlwaysProxyFail () (⟨[sampleProxyB], sampleProxyA⟩ : SessionState).current =
      .connErr 0 ∧
    simpleGraph.is_proxy_error 0 = true ∧
    sessionRequest simpleGraph transportAlwaysProxyFail ()
        (⟨[sampleProxyB], sampleProxyA⟩ : SessionState) =
      ((match transportAlwaysProxyFail () sampleProxyB with
        | .ok v => ReqResult.success v
        | .connErr e2 => ReqResult.raised e2),
        (⟨[], sampleProxyB⟩ : SessionState),
        [((), sampleProxyA), ((), sampleProxyB)]) :=
  ⟨rfl, rfl, by decide,
    C3_single_rotation_retry simpleGraph transportAlwaysProxyFail ()
      ⟨[sampleProxyB], sampleProxyA⟩ 0 sampleProxyB [] rfl rfl (by decide)⟩

/-- C4: when a request fails with a connection error classified as NOT
proxy-originated, the session re-raises that exact error object, performs no
rotation, and leaves the session state (including the active proxy)
unchanged, after exactly one transport invocation. -/
theorem C4_non_proxy_error_propagates {Req : Type} {n : Nat} (g : ExcGraph n)
    (transport : Req → Proxy → Outcome n) (r : Req) (st : SessionState)
    (e : Fin n)
    (hfail : transport r st.current = .connErr e)
    (hclass : g.is_proxy_error e = false) :
    sessionRequest g transport r st = (.raised e, st, [(r, st.current)]) := by
  unfold sessionRequest
  rw [hfail]
  simp [hclass]

/-- A transport that always raises the unclassified (non-proxy) error
node 1 of `simpleGraph`. -/
def transportAlwaysPlainFail : Unit → Proxy → Outcome 2 :=
  fun _ _ => .connErr 1

theorem C4_non_proxy_error_propagates_witness :
    transportAlwaysPlainFail () (⟨[sampleProxyB], sampleProxyA⟩ : SessionState).current =
      .connErr 1 ∧
    simpleGraph.is_proxy_error 1 = false ∧
    sessionRequest simpleGraph transportAlwaysPlainFail ()
        (⟨[sampleProxyB], sampleProxyA⟩ : SessionState) =
      (.raised 1, (⟨[sampleProxyB], sampleProxyA⟩ : SessionState),
        [((), sampleProxyA)]) :=
  ⟨rfl, by decide,
    C4_non_proxy_error_propagates simpleGraph transportAlwaysPlainFail ()
      ⟨[sampleProxyB], sampleProxyA⟩ 1 rfl (by decide)⟩

/-- C1: the code has no terminal Exhausted state. With one proxy and
`max_cycles = 1`, the session starts with an empty rotation tail; a request
whose transport attempt fails proxy-classified raises
`RuntimeError('No more proxies available')` but leaves the session state
unchanged, with the stale proxy still configured. A subsequent request on
the very same session state performs a transport call (trace of length 1,
against the stale proxy) — and even succeeds when the transport recovers —
instead of failing immediately with an exhaustion error and no transport
call. -/
theorem C1_exhaustion_not_terminal :
    mkSession [sampleProxyA] (some 1) =
      .ok (⟨[], sampleProxyA⟩ : SessionState) ∧
    sessionRequest simpleGraph transportAlwaysProxyFail ()
        (⟨[], sampleProxyA⟩ : SessionState) =
      (.noMoreProxies, (⟨[], sampleProxyA⟩ : SessionState),
        [((), sampleProxyA)]) ∧
    sessionRequest simpleGraph transportAlwaysOk ()
        (⟨[], sampleProxyA⟩ : SessionState) =
      (.success 7, (⟨[], sampleProxyA⟩ : SessionState),
        [((), sampleProxyA)]) :=
  ⟨rfl, rfl, rfl⟩

end Proxyutils
